import Mathlib

/-!
# Verification of the Masterplan Tycoon calculator dependency engine

Shallow embedding of the production-dependency code of the repository:

* `src/src/data_exploration/calculation_safety.py` — the safety checker
  (`get_building_safety_limit`, `check_building_count`, `check_production_rate`);
* `src/src/game_calculation/dependency_analyzer.py` — graph construction
  (`build_production_graph`), dependency tracing
  (`trace_resource_dependencies`) and the requirement estimator
  (`calculate_production_requirements`).

Numeric quantities that the Python code holds in floats are modelled as
exact rationals (`ℚ`); every constant involved (`3.0`, `0.8`, `0.5`) is
exactly representable in binary floating point and the products that the
code takes stay far below the range where double rounding could change a
truncation result, so the rational model and the float code agree on all
inputs considered here.
-/

namespace Masterplan

/-- Truncation toward zero: Python `int()` applied to a (rational
stand-in for a) float. -/
def pyInt (x : ℚ) : ℤ := if x < 0 then ⌈x⌉ else ⌊x⌋

/-! ## Safety checker (`calculation_safety.py`)

The `safety_bounds` dictionary of the checker is modelled by the pieces the
checked functions actually read: the observed per-building counts
(`max_buildings_per_type`, a dict read with `.get(building_type, 0)`,
modelled as a total function `String → ℕ`), and the constants set in
`load_safety_bounds`: `building_type_multiplier = 3.0`,
`warning_threshold = 0.8`, `max_production_rate = 1000`.  The result
dictionaries are modelled by their `status`, `limit`, `calculated` and
`severity` entries; the human-readable `message` entry is not modelled. -/

def buildingTypeMultiplier : ℚ := 3
def warningThreshold : ℚ := 0.8
def maxProductionRate : ℚ := 1000

/-- Function `get_building_safety_limit`: observed count times the multiplier when
the building was observed, a flat default of 50 otherwise. -/
def getBuildingSafetyLimit (observed : String → ℕ) (buildingType : String) : ℤ :=
  let actualCount := observed buildingType
  if actualCount > 0 then pyInt ((actualCount : ℚ) * buildingTypeMultiplier)
  else 50

/-- Result of `check_building_count` (the `message` field is omitted). -/
structure CountCheck where
  status : String
  limit : ℤ
  calculated : ℤ
  severity : String
  deriving Repr, DecidableEq

/-- Function `check_building_count`: ERROR above the limit, WARNING strictly above
`int(limit * 0.8)`, OK otherwise. -/
def checkBuildingCount (observed : String → ℕ) (buildingType : String)
    (calculatedCount : ℤ) : CountCheck :=
  let limit := getBuildingSafetyLimit observed buildingType
  let warningLevel := pyInt ((limit : ℚ) * warningThreshold)
  if calculatedCount > limit then
    ⟨"ERROR", limit, calculatedCount, "high"⟩
  else if calculatedCount > warningLevel then
    ⟨"WARNING", limit, calculatedCount, "medium"⟩
  else
    ⟨"OK", limit, calculatedCount, "low"⟩

/-- The warning cut-off used by `check_building_count`. -/
def buildingWarningLevel (observed : String → ℕ) (buildingType : String) : ℤ :=
  pyInt ((getBuildingSafetyLimit observed buildingType : ℚ) * warningThreshold)

/-- Result of `check_production_rate` (the `message` field is omitted). -/
structure RateCheck where
  status : String
  severity : String
  deriving Repr, DecidableEq

/-- Function `check_production_rate`: ERROR above `max_production_rate`, WARNING
strictly above half of it, OK otherwise. -/
def checkProductionRate (ratePerMinute : ℚ) : RateCheck :=
  if ratePerMinute > maxProductionRate then ⟨"ERROR", "high"⟩
  else if ratePerMinute > maxProductionRate * 0.5 then ⟨"WARNING", "medium"⟩
  else ⟨"OK", "low"⟩

/-! ## Requirement estimator (`dependency_analyzer.py`,
`calculate_production_requirements`)

`building_info` is the dict built by `build_production_graph`: building
name → `{inputs: dict, outputs: dict, production_rate, production_time}`.
The dicts are modelled as association lists (first binding wins on
lookup, as a Python dict has unique keys).  `building_requirements` is a
`defaultdict(int)`, modelled as a total function `String → ℤ` that is `0`
wherever never assigned. -/

/-- The per-building info record stored in `building_info`. -/
structure BuildingInfo where
  inputs : List (String × ℚ)
  outputs : List (String × ℚ)
  production_rate : ℚ
  production_time : ℚ
  deriving Repr, DecidableEq

/-- Dict lookup on an association list, as in `d[k]` after `k in d`. -/
def alistLookup (l : List (String × ℚ)) (k : String) : Option ℚ :=
  (l.find? (fun p => p.1 == k)).map (·.2)

/-- The body of the inner loop of `calculate_production_requirements` for
one target `(resource, quantity_needed)` and one `building_info` item:
if the building outputs the resource and has a positive production rate,
raise its requirement to `max(old, int(max(1, quantity_needed / output_qty)))`;
otherwise leave the requirements unchanged. -/
def applyBuilding (resource : String) (quantityNeeded : ℚ)
    (req : String → ℤ) (item : String × BuildingInfo) : String → ℤ :=
  match alistLookup item.2.outputs resource with
  | some outputQty =>
    if item.2.production_rate > 0 then
      let buildingsNeeded : ℚ := max 1 (quantityNeeded / outputQty)
      fun n => if n = item.1 then max (req n) (pyInt buildingsNeeded) else req n
    else req
  | none => req

/-- Processing of one target `(resource, quantity_needed)`: the loop over
`building_info.items()`. -/
def applyTarget (buildingInfo : List (String × BuildingInfo))
    (req : String → ℤ) (target : String × ℚ) : String → ℤ :=
  buildingInfo.foldl (applyBuilding target.1 target.2) req

/-- Function `calculate_production_requirements(target_resources, building_info)`:
fold over the targets starting from the empty `defaultdict(int)`. -/
def calculateProductionRequirements (targetResources : List (String × ℚ))
    (buildingInfo : List (String × BuildingInfo)) : String → ℤ :=
  targetResources.foldl (applyTarget buildingInfo) (fun _ => 0)

/-! ## Graph construction (`dependency_analyzer.py`, `build_production_graph`)

The database tables read by the SQL query are modelled relationally: the
query inner-joins `buildings` with `building_inputs` and
`building_outputs` on the building id, resolves the two resource ids
against `resources`, and keeps only rows where both names resolve
(`WHERE r_in.name IS NOT NULL AND r_out.name IS NOT NULL` turns the LEFT
JOINs into inner joins), ordered by building name.

The networkx `DiGraph` is modelled by its edge list: `G.add_edge(u, v, …)`
on an existing `(u, v)` edge replaces the attributes of that edge in place
(keeping its position in the adjacency structure), otherwise it appends a
new edge.  The source records no validation warnings of any kind while
building the graph; the `warnings` field of the build result stands for
the (therefore always empty) collection of warnings the build records. -/

structure ResourceRow where
  id : ℕ
  name : String
  deriving Repr, DecidableEq

structure BuildingRow where
  id : ℕ
  name : String
  deriving Repr, DecidableEq

structure InputRow where
  building_id : ℕ
  resource_id : ℕ
  quantity : ℚ
  deriving Repr, DecidableEq

structure OutputRow where
  building_id : ℕ
  resource_id : ℕ
  quantity : ℚ
  output_per_minute : ℚ
  production_time_seconds : ℚ
  deriving Repr, DecidableEq

/-- The in-memory snapshot of the four tables the query reads. -/
structure Catalog where
  resources : List ResourceRow
  buildings : List BuildingRow
  building_inputs : List InputRow
  building_outputs : List OutputRow
  deriving Repr, DecidableEq

/-- One row of the result set of the query. -/
structure QueryRow where
  building_name : String
  input_resource : String
  input_qty : ℚ
  output_resource : String
  output_qty : ℚ
  output_per_minute : ℚ
  production_time_seconds : ℚ
  deriving Repr, DecidableEq

/-- Resolve a resource id against the `resources` table. -/
def lookupResource (cat : Catalog) (rid : ℕ) : Option String :=
  (cat.resources.find? (fun r => r.id == rid)).map (·.name)

/-- Byte-wise lexicographic strict order on character lists, the SQLite
BINARY collation used by `ORDER BY b.name`. -/
def strLtList : List Char → List Char → Bool
  | [], [] => false
  | [], _ :: _ => true
  | _ :: _, [] => false
  | a :: s, b :: t =>
    if a.val < b.val then true
    else if b.val < a.val then false
    else strLtList s t

/-- The corresponding reflexive order on strings. -/
def strLe (s t : String) : Bool := !(strLtList t.data s.data)

/-- The join of one building row with one input row and one output row,
kept only when both resource ids resolve. -/
def joinRow (cat : Catalog) (b : BuildingRow) (bi : InputRow) (bo : OutputRow) :
    Option QueryRow :=
  match lookupResource cat bi.resource_id, lookupResource cat bo.resource_id with
  | some rin, some rout =>
    some ⟨b.name, rin, bi.quantity, rout, bo.quantity,
          bo.output_per_minute, bo.production_time_seconds⟩
  | _, _ => none

/-- The SQL query of `build_production_graph`: inner join on building id,
resource-name resolution, `ORDER BY b.name`. -/
def queryRows (cat : Catalog) : List QueryRow :=
  ((cat.buildings.flatMap (fun b =>
    (cat.building_inputs.filter (fun bi => bi.building_id == b.id)).flatMap (fun bi =>
      (cat.building_outputs.filter (fun bo => bo.building_id == b.id)).filterMap
        (fun bo => joinRow cat b bi bo)))).insertionSort
    (fun r₁ r₂ => strLe r₁.building_name r₂.building_name = true))

/-- One directed production edge of the networkx graph, with its
attribute dictionary. -/
structure Edge where
  input : String
  output : String
  building : String
  input_qty : ℚ
  output_qty : ℚ
  production_rate : ℚ
  production_time : ℚ
  deriving Repr, DecidableEq

/-- The edge a query row contributes (`G.add_edge(input_res, output_res, …)`). -/
def edgeOfRow (row : QueryRow) : Edge :=
  ⟨row.input_resource, row.output_resource, row.building_name,
   row.input_qty, row.output_qty, row.output_per_minute,
   row.production_time_seconds⟩

/-- Whether two edges connect the same ordered resource pair. -/
def samePair (e e' : Edge) : Bool :=
  e'.input == e.input && e'.output == e.output

/-- networkx `add_edge`: replace the attributes of an existing `(u, v)`
edge in place, otherwise append the new edge. -/
def addEdge (es : List Edge) (e : Edge) : List Edge :=
  if es.any (samePair e) then es.map (fun e' => if samePair e e' then e else e')
  else es ++ [e]

/-- The edge list accumulated over the query rows. -/
def buildGraphEdges (rows : List QueryRow) : List Edge :=
  rows.foldl (fun es row => addEdge es (edgeOfRow row)) []

/-- A warning identifying a building row that references a missing
resource.  `build_production_graph` never constructs one. -/
structure ValidationWarning where
  building_id : ℕ
  resource_id : ℕ
  deriving Repr, DecidableEq

/-- The result of `build_production_graph`, restricted to the parts the
claims are about: the edges of the graph and the warnings the build records.
The source records no warnings, so `warnings` is always `[]`. -/
structure BuildResult where
  edges : List Edge
  warnings : List ValidationWarning
  deriving Repr, DecidableEq

/-- `build_production_graph` over a catalog snapshot. -/
def buildProductionGraph (cat : Catalog) : BuildResult :=
  { edges := buildGraphEdges (queryRows cat), warnings := [] }

/-- The set of ordered resource pairs connected by the edges of the graph. -/
def edgePairs (es : List Edge) : Finset (String × String) :=
  (es.map (fun e => (e.input, e.output))).toFinset

/-! ## Dependency tracer (`dependency_analyzer.py`,
`trace_resource_dependencies`)

The tracer walks the production graph (here: its edge list) from a target
resource.  It keeps one `visited` set for the whole call and a
`dependencies` map `depth → set of (resource, tag)` where the tag is a
name of a producing building or `"raw"`.  The Python recursion guard is
`if resource in visited or depth > max_depth: return`; with `depth`
starting at `0`, the depth part is realised here by a fuel argument that
starts at `max_depth + 1` and decreases by one exactly when `depth`
increases by one, so `fuel = 0 ↔ depth > max_depth`.  The `path`
argument of the Python function is threaded but never read, so it is not
modelled.  Sets are modelled as duplicate-free lists (insertion order
kept); only membership in them is ever stated. -/

/-- Method `graph.predecessors(resource)`: the distinct input endpoints of the
edges into `resource`, in insertion order. -/
def predecessors (g : List Edge) (resource : String) : List String :=
  ((g.filter (fun e => e.output == resource)).map (·.input)).dedup

/-- Reading `building` out of `graph.get_edge_data(producer, resource)` (the edge is
present whenever `producer` is a predecessor of `resource`; the default
`""` is never reached in that case). -/
def edgeBuilding (g : List Edge) (producer resource : String) : String :=
  ((g.find? (fun e => e.input == producer && e.output == resource)).map
    (·.building)).getD ""

/-- The mutable state of one trace call: the trace-wide `visited` set and
the `dependencies` map `depth → set of (resource, tag)`. -/
structure TraceState where
  visited : List String
  deps : ℕ → List (String × String)

/-- Update `dependencies[depth].add(entry)` on the set-as-list model. -/
def addDep (deps : ℕ → List (String × String)) (depth : ℕ)
    (entry : String × String) : ℕ → List (String × String) :=
  fun n => if n = depth then
    (if entry ∈ deps depth then deps depth else deps depth ++ [entry])
  else deps n

/-- The recursive `dfs_dependencies` helper.  The first argument is the
remaining depth budget `max_depth + 1 - depth`; the guard
`depth > max_depth` is the `0` case. -/
def dfsDependencies (g : List Edge) : ℕ → ℕ → String → TraceState → TraceState
  | 0, _, _, st => st
  | fuel + 1, depth, resource, st =>
    if resource ∈ st.visited then st
    else
      let st1 : TraceState := { st with visited := resource :: st.visited }
      let producers := predecessors g resource
      if producers.isEmpty then
        { st1 with deps := addDep st1.deps depth (resource, "raw") }
      else
        producers.foldl
          (fun acc producer =>
            dfsDependencies g fuel (depth + 1) producer
              { acc with
                deps := addDep acc.deps depth
                  (resource, edgeBuilding g producer resource) }) st1

/-- Function `trace_resource_dependencies(graph, target_resource, max_depth=10)`:
run the DFS from depth `0` with empty state and return the final state
(the Python function returns `dependencies`; `visited` is part of the
same call-local state and is kept to state invariants about it). -/
def traceResourceDependencies (g : List Edge) (target : String)
    (maxDepth : ℕ := 10) : TraceState :=
  dfsDependencies g (maxDepth + 1) 0 target ⟨[], fun _ => []⟩

/-- The distinct resources incident to the edges of the graph (the nodes that
`build_production_graph` adds to the graph). -/
def graphNodes (g : List Edge) : List String :=
  (g.map (·.input) ++ g.map (·.output)).dedup

/-! ## Lemmas about the safety checker -/

/-- The safety limit is never negative. -/
lemma getBuildingSafetyLimit_nonneg (observed : String → ℕ) (b : String) :
    0 ≤ getBuildingSafetyLimit observed b := by
  unfold getBuildingSafetyLimit pyInt buildingTypeMultiplier
  by_cases h : observed b > 0
  · have hx : (0 : ℚ) ≤ (observed b : ℚ) * 3 := by positivity
    simp only [h, if_true, not_lt.mpr hx, if_neg (not_lt.mpr hx)]
    exact Int.floor_nonneg.mpr hx
  · simp [h]

/-- The warning level never exceeds the limit. -/
lemma buildingWarningLevel_le (observed : String → ℕ) (b : String) :
    buildingWarningLevel observed b ≤ getBuildingSafetyLimit observed b := by
  have h0 : (0 : ℚ) ≤ ((getBuildingSafetyLimit observed b : ℤ) : ℚ) := by
    exact_mod_cast getBuildingSafetyLimit_nonneg observed b
  unfold buildingWarningLevel pyInt warningThreshold
  have hx : (0 : ℚ) ≤ ((getBuildingSafetyLimit observed b : ℤ) : ℚ) * 0.8 := by
    nlinarith
  rw [if_neg (not_lt.mpr hx)]
  calc ⌊((getBuildingSafetyLimit observed b : ℤ) : ℚ) * 0.8⌋
      ≤ ⌊((getBuildingSafetyLimit observed b : ℤ) : ℚ)⌋ :=
        Int.floor_le_floor (by nlinarith)
    _ = getBuildingSafetyLimit observed b := Int.floor_intCast _

/-- **C7** (corrected).  The `check_building_count` statuses characterised
exactly: ERROR iff the calculated count strictly exceeds the limit
(observed count times 3 when observed, flat 50 otherwise), WARNING iff it
is strictly above `int(limit * 0.8)` and at most the limit, OK iff it is
at most `int(limit * 0.8)`.  The WARNING band is the half-open interval
`(int(0.8 * limit), limit]`, not the closed interval
`[0.8 * limit, limit]` stated by the spec. -/
theorem checkBuildingCount_status_iff (observed : String → ℕ) (b : String)
    (c : ℤ) :
    ((checkBuildingCount observed b c).status = "ERROR" ↔
      getBuildingSafetyLimit observed b < c) ∧
    ((checkBuildingCount observed b c).status = "WARNING" ↔
      buildingWarningLevel observed b < c ∧ c ≤ getBuildingSafetyLimit observed b) ∧
    ((checkBuildingCount observed b c).status = "OK" ↔
      c ≤ buildingWarningLevel observed b) := by
  have hwl := buildingWarningLevel_le observed b
  have hlv : pyInt ((getBuildingSafetyLimit observed b : ℚ) * warningThreshold)
      = buildingWarningLevel observed b := rfl
  simp only [checkBuildingCount, hlv]
  split_ifs with h1 h2 <;> refine ⟨?_, ?_, ?_⟩ <;> simp <;> omega

/-- **C7** (counterexample to the claim as stated).  For an unobserved
building the limit is 50 and `0.8 * 50 = 40`; a calculated count of 40
lies inside the closed interval `[0.8 * limit, limit]`, yet
`check_building_count` returns OK, not WARNING, because the code tests
`calculated > int(limit * 0.8)` strictly. -/
theorem checkBuildingCount_boundary_not_warning :
    (checkBuildingCount (fun _ => 0) "Unknown Building" 40).status = "OK" ∧
    getBuildingSafetyLimit (fun _ => 0) "Unknown Building" = 50 ∧
    warningThreshold * ((50 : ℤ) : ℚ) ≤ ((40 : ℤ) : ℚ) ∧
    ((40 : ℤ) : ℚ) ≤ ((50 : ℤ) : ℚ) ∧
    ("OK" : String) ≠ "WARNING" := by
  have hlim : getBuildingSafetyLimit (fun _ => 0) "Unknown Building" = 50 := rfl
  have hwl : buildingWarningLevel (fun _ => 0) "Unknown Building" = 40 := by
    unfold buildingWarningLevel pyInt
    rw [hlim, warningThreshold]
    norm_num
  refine ⟨?_, hlim, by norm_num [warningThreshold], by norm_num, by decide⟩
  simp only [checkBuildingCount, hlim]
  norm_num [pyInt, warningThreshold]

/-- **C9** (confirmed).  The `check_production_rate` statuses characterised
exactly over the default bounds: ERROR iff the rate strictly exceeds the
maximum rate 1000, WARNING iff it is strictly above half the maximum (500)
and at most the maximum, OK otherwise; and the rate warning cut-off
`0.5 * max` differs from the `warning_threshold = 0.8` cut-off used for
counts. -/
theorem checkProductionRate_status_iff (rate : ℚ) :
    ((checkProductionRate rate).status = "ERROR" ↔ maxProductionRate < rate) ∧
    ((checkProductionRate rate).status = "WARNING" ↔
      maxProductionRate * 0.5 < rate ∧ rate ≤ maxProductionRate) ∧
    ((checkProductionRate rate).status = "OK" ↔ rate ≤ maxProductionRate * 0.5) ∧
    maxProductionRate * 0.5 ≠ maxProductionRate * warningThreshold := by
  have hne : maxProductionRate * 0.5 ≠ maxProductionRate * warningThreshold := by
    norm_num [maxProductionRate, warningThreshold]
  have hhalf : maxProductionRate * 0.5 < maxProductionRate := by
    norm_num [maxProductionRate]
  unfold checkProductionRate
  split_ifs with h1 h2
  · exact ⟨iff_of_true rfl h1,
      iff_of_false (by simp) (fun h => absurd h.2 (not_le.mpr h1)),
      iff_of_false (by simp) (fun h => absurd (lt_of_le_of_lt h hhalf)
        (lt_asymm h1)),
      hne⟩
  · exact ⟨iff_of_false (by simp) h1,
      iff_of_true rfl ⟨h2, not_lt.mp h1⟩,
      iff_of_false (by simp) (not_le.mpr h2),
      hne⟩
  · exact ⟨iff_of_false (by simp) h1,
      iff_of_false (by simp) (fun h => h2 h.1),
      iff_of_true rfl (not_lt.mp h2),
      hne⟩

/-! ## Lemmas about the requirement estimator -/

/-- The effect of one `building_info` item on the requirement tracked for
one fixed building name `b`, as a fold step over `ℤ`. -/
def stepAt (target : String × ℚ) (b : String) (acc : ℤ)
    (item : String × BuildingInfo) : ℤ :=
  match alistLookup item.2.outputs target.1 with
  | some outputQty =>
    if item.2.production_rate > 0 then
      (if b = item.1 then max acc (pyInt (max 1 (target.2 / outputQty))) else acc)
    else acc
  | none => acc

/-- Pointwise reading of `applyBuilding` at a fixed building name. -/
lemma applyBuilding_apply (target : String × ℚ) (req : String → ℤ)
    (item : String × BuildingInfo) (b : String) :
    applyBuilding target.1 target.2 req item b = stepAt target b (req b) item := by
  unfold applyBuilding stepAt
  cases h : alistLookup item.2.outputs target.1
  · rfl
  · by_cases hr : item.2.production_rate > 0
    · by_cases hb : b = item.1 <;> simp [hr, hb]
    · simp [hr]

/-- Pointwise reading of `applyTarget` at a fixed building name. -/
lemma applyTarget_apply (buildingInfo : List (String × BuildingInfo))
    (req : String → ℤ) (target : String × ℚ) (b : String) :
    applyTarget buildingInfo req target b
      = buildingInfo.foldl (stepAt target b) (req b) := by
  induction buildingInfo generalizing req with
  | nil => rfl
  | cons item rest ih =>
    show applyTarget rest (applyBuilding target.1 target.2 req item) target b = _
    rw [ih, applyBuilding_apply]
    rfl

/-- The fold step `stepAt` commutes with a pending `max`. -/
lemma stepAt_max (target : String × ℚ) (b : String) (x y : ℤ)
    (item : String × BuildingInfo) :
    stepAt target b (max x y) item = max x (stepAt target b y item) := by
  unfold stepAt
  cases alistLookup item.2.outputs target.1 <;> simp only []
  split_ifs <;> simp [max_assoc]

/-- Folding `stepAt` from `max x y` factors the `x` out. -/
lemma foldl_stepAt_max (target : String × ℚ) (b : String)
    (l : List (String × BuildingInfo)) (x y : ℤ) :
    l.foldl (stepAt target b) (max x y) = max x (l.foldl (stepAt target b) y) := by
  induction l generalizing y with
  | nil => rfl
  | cons i l ih => simp only [List.foldl_cons, stepAt_max, ih]

/-- Folding `max` over a list from `max x y` factors the `x` out. -/
lemma foldl_max_max (l : List ℤ) (x y : ℤ) :
    l.foldl max (max x y) = max x (l.foldl max y) := by
  induction l generalizing y with
  | nil => rfl
  | cons i l ih => simp only [List.foldl_cons, max_assoc, ih]

/-- A `max`-fold over `ℤ` never drops below its start value. -/
lemma le_foldl_max (l : List ℤ) (y : ℤ) : y ≤ l.foldl max y := by
  induction l generalizing y with
  | nil => exact le_rfl
  | cons i l ih => exact le_trans (le_max_left y i) (ih (max y i))

/-- The estimate for a single target, read as a fold of `stepAt`. -/
lemma calcSingle (target : String × ℚ) (buildingInfo : List (String × BuildingInfo))
    (b : String) :
    calculateProductionRequirements [target] buildingInfo b
      = buildingInfo.foldl (stepAt target b) 0 := by
  show applyTarget buildingInfo (fun _ => 0) target b = _
  rw [applyTarget_apply]

/-- **C3** (confirmed).  The count `calculate_production_requirements`
returns for a building is the maximum over the targets of the
single-target requirements — a fold of `max`, not a sum.  In particular
appending a further target whose individual requirement does not exceed
the current maximum leaves the count unchanged. -/
theorem calculateProductionRequirements_is_max_of_singles
    (targetResources : List (String × ℚ))
    (buildingInfo : List (String × BuildingInfo)) (b : String) :
    calculateProductionRequirements targetResources buildingInfo b
      = (targetResources.map
          (fun t => calculateProductionRequirements [t] buildingInfo b)).foldl max 0 := by
  suffices h : ∀ (ts : List (String × ℚ)) (req : String → ℤ), 0 ≤ req b →
      (ts.foldl (applyTarget buildingInfo) req) b
        = max (req b)
            ((ts.map (fun t => calculateProductionRequirements [t] buildingInfo b)).foldl
              max 0) by
    calc calculateProductionRequirements targetResources buildingInfo b
        = max 0 ((targetResources.map
            (fun t => calculateProductionRequirements [t] buildingInfo b)).foldl
              max 0) := h targetResources (fun _ => 0) le_rfl
      _ = _ := max_eq_right (le_foldl_max _ 0)
  intro ts
  induction ts with
  | nil => intro req h0; simpa using (max_eq_left h0).symm
  | cons t ts ih =>
    intro req h0
    simp only [List.foldl_cons, List.map_cons]
    have hreq : (applyTarget buildingInfo req t) b
        = max (req b) (calculateProductionRequirements [t] buildingInfo b) := by
      rw [applyTarget_apply, calcSingle]
      conv_lhs => rw [show req b = max (req b) 0 from (max_eq_left h0).symm]
      exact foldl_stepAt_max t b buildingInfo (req b) 0
    have h0' : 0 ≤ (applyTarget buildingInfo req t) b := by
      rw [hreq]; exact le_trans h0 (le_max_left _ _)
    rw [ih _ h0', hreq, max_assoc]
    congr 1
    rw [max_comm (0 : ℤ), foldl_max_max]

/-- **C2** (counterexample to the claim as stated).  A demand of 10 against
a per-building output quantity of 3 (positive production rate) yields a
count of 3 (`int(max(1, 10/3))`), while `ceil(10/3) = 4`: the estimator
truncates, it does not take the ceiling. -/
theorem calculateProductionRequirements_not_ceil :
    calculateProductionRequirements [("Flour", 10)]
      [("Mill", ⟨[], [("Flour", 3)], 1, 6⟩)] "Mill" = 3 ∧
    (⌈(10 : ℚ) / 3⌉ : ℤ) = 4 := by
  constructor
  · have h1 : max (1 : ℚ) (10 / 3) = 10 / 3 := max_eq_right (by norm_num)
    have h2 : ¬((10 : ℚ) / 3 < 0) := by norm_num
    simp [calculateProductionRequirements, applyTarget, applyBuilding,
      alistLookup, List.find?, pyInt, h1, h2]
    norm_num
  · norm_num [Int.ceil_eq_iff]

/-- **C2** (amended).  For a single target `(r, q)` and a single producing
building with outputs `[(r, o)]`, `o > 0` and a positive production rate,
the estimator returns `max 1 ⌊q / o⌋` — the quotient truncated with
`int(...)` and clamped below by 1 — rather than `ceil(q / o)`; the two
agree exactly when `o` divides `q`, as in the 100-versus-10 example. -/
theorem calculateProductionRequirements_single_building (r b : String)
    (ins : List (String × ℚ)) (q o rate time : ℚ)
    (ho : 0 < o) (hrate : 0 < rate) :
    calculateProductionRequirements [(r, q)] [(b, ⟨ins, [(r, o)], rate, time⟩)] b
      = max 1 ⌊q / o⌋ := by
  rw [calcSingle]
  show stepAt (r, q) b 0 (b, ⟨ins, [(r, o)], rate, time⟩) = _
  unfold stepAt alistLookup
  simp only [List.find?, beq_self_eq_true, Option.map_some', if_true]
  rw [if_pos hrate]
  have hge : (1 : ℚ) ≤ max 1 (q / o) := le_max_left _ _
  have hnneg : ¬(max (1 : ℚ) (q / o) < 0) := by
    push_neg; exact le_trans (by norm_num) hge
  unfold pyInt
  rw [if_neg hnneg]
  rcases le_total (q / o) 1 with h | h
  · have h2 : ⌊q / o⌋ ≤ 1 := by
      calc ⌊q / o⌋ ≤ ⌊(1 : ℚ)⌋ := Int.floor_le_floor h
        _ = 1 := Int.floor_one
    rw [max_eq_left h, Int.floor_one, max_eq_left h2]
    decide
  · have h1 : (1 : ℤ) ≤ ⌊q / o⌋ := Int.le_floor.mpr (by exact_mod_cast h)
    rw [max_eq_right h, max_eq_right (le_trans (by decide) h1),
      max_eq_right h1]

/-- Witness for the amended C2 theorem at the 100-per-minute-versus-10
example of the spec: the count is `max 1 ⌊100/10⌋ = 10`. -/
theorem calculateProductionRequirements_single_building_witness :
    calculateProductionRequirements [("Flour", 100)]
      [("Mill", ⟨[], [("Flour", 10)], 1, 6⟩)] "Mill" = max 1 ⌊(100 : ℚ) / 10⌋ :=
  calculateProductionRequirements_single_building "Flour" "Mill" [] 100 10 1 6
    (by norm_num) (by norm_num)

/-! ## Lemmas about graph construction -/

/-- Every edge matches its own resource pair. -/
lemma samePair_self (e : Edge) : samePair e e = true := by
  simp [samePair]

/-- Matching edges carry the same resource pair. -/
lemma samePair_pair {e e' : Edge} (h : samePair e e' = true) :
    (e'.input, e'.output) = (e.input, e.output) := by
  unfold samePair at h
  simp only [Bool.and_eq_true, beq_iff_eq] at h
  simp [h.1, h.2]

/-- Replacing every matching edge by `e` makes `e` the first match. -/
lemma find?_map_replace (e : Edge) :
    ∀ es : List Edge, es.any (samePair e) = true →
      (es.map (fun e' => if samePair e e' then e else e')).find? (samePair e)
        = some e := by
  intro es
  induction es with
  | nil => intro h; simp at h
  | cons x xs ih =>
    intro h
    by_cases hx : samePair e x
    · simp [List.find?, hx, samePair_self]
    · have hxs : xs.any (samePair e) = true := by
        simp only [List.any_cons, hx, Bool.false_or] at h
        exact h
      rw [List.map_cons, if_neg hx, List.find?_cons_of_neg _ hx]
      exact ih hxs

/-- After `add_edge`, the edge found for the resource pair of `e` is `e`
itself. -/
lemma addEdge_find (es : List Edge) (e : Edge) :
    (addEdge es e).find? (samePair e) = some e := by
  unfold addEdge
  by_cases h : es.any (samePair e)
  · rw [if_pos h]
    exact find?_map_replace e es h
  · rw [if_neg h, List.find?_append]
    have hnone : es.find? (samePair e) = none := by
      rw [List.find?_eq_none]
      intro x hx hpx
      exact h (List.any_eq_true.mpr ⟨x, hx, hpx⟩)
    rw [hnone]
    simp [List.find?, samePair_self]

/-- **C4** (amended).  After processing the rows up to and including a
given row, the edge the graph holds for the resource pair of that row is
exactly the edge of that row: a later row with the same (input, output)
pair replaces the attributes an earlier row stored on the edge — the
contributions are not accumulated as a list. -/
theorem buildGraphEdges_last_row_wins (rows : List QueryRow) (row : QueryRow) :
    (buildGraphEdges (rows ++ [row])).find? (samePair (edgeOfRow row))
      = some (edgeOfRow row) := by
  unfold buildGraphEdges
  rw [List.foldl_append]
  exact addEdge_find _ _

/-- Catalog used to exhibit the overwriting behaviour: the buildings
Alpha and Beta both turn Water (id 1) into Steam (id 2), with different
quantities and rates. -/
def cat4 : Catalog :=
  { resources := [⟨1, "Water"⟩, ⟨2, "Steam"⟩],
    buildings := [⟨1, "Alpha"⟩, ⟨2, "Beta"⟩],
    building_inputs := [⟨1, 1, 2⟩, ⟨2, 1, 3⟩],
    building_outputs := [⟨1, 2, 1, 10, 6⟩, ⟨2, 2, 1, 5, 12⟩] }

/-- **C4** (counterexample to the claim as stated).  Alpha and Beta both
contribute the Water → Steam edge, yet the built graph retains a single
edge carrying only Beta: the contribution of Alpha has been overwritten,
not accumulated into a list. -/
theorem buildProductionGraph_overwrites_counterexample :
    ((buildProductionGraph cat4).edges.map (fun e => e.building)) = ["Beta"] ∧
    "Alpha" ∉ (buildProductionGraph cat4).edges.map (fun e => e.building) := by
  have h : ((buildProductionGraph cat4).edges.map (fun e => e.building))
      = ["Beta"] := by decide
  exact ⟨h, by rw [h]; decide⟩

/-- A join row whose input resource id does not resolve is dropped. -/
lemma joinRow_input_none (cat : Catalog) (b : BuildingRow) (bi : InputRow)
    (bo : OutputRow) (h : lookupResource cat bi.resource_id = none) :
    joinRow cat b bi bo = none := by
  unfold joinRow
  rw [h]

/-- A join row whose output resource id does not resolve is dropped. -/
lemma joinRow_output_none (cat : Catalog) (b : BuildingRow) (bi : InputRow)
    (bo : OutputRow) (h : lookupResource cat bo.resource_id = none) :
    joinRow cat b bi bo = none := by
  unfold joinRow
  rw [h]
  cases lookupResource cat bi.resource_id <;> rfl

/-- **C6** (amended).  A building input or output row referencing a
resource id absent from the catalog is excluded from the join, so the
graph built with such a row present equals the graph built without it —
construction of the rest of the graph completes unchanged — but no
ValidationWarning is recorded: the build result carries no warnings at
all.  (The SQL `WHERE ... IS NOT NULL` filter silently drops the row.) -/
theorem buildProductionGraph_skips_dangling (cat : Catalog) (bi : InputRow)
    (bo : OutputRow)
    (hbi : lookupResource cat bi.resource_id = none)
    (hbo : lookupResource cat bo.resource_id = none) :
    buildProductionGraph { cat with building_inputs := cat.building_inputs ++ [bi] }
      = buildProductionGraph cat ∧
    buildProductionGraph { cat with building_outputs := cat.building_outputs ++ [bo] }
      = buildProductionGraph cat ∧
    (buildProductionGraph cat).warnings = [] := by
  refine ⟨?_, ?_, rfl⟩
  · have hq : queryRows { cat with building_inputs := cat.building_inputs ++ [bi] }
        = queryRows cat := by
      unfold queryRows
      congr 1
      have hinner : ∀ b : BuildingRow,
          (((cat.building_inputs ++ [bi]).filter
              (fun x => x.building_id == b.id)).flatMap (fun bi' =>
            (cat.building_outputs.filter (fun x => x.building_id == b.id)).filterMap
              (fun bo' => joinRow cat b bi' bo')))
          = ((cat.building_inputs.filter
              (fun x => x.building_id == b.id)).flatMap (fun bi' =>
            (cat.building_outputs.filter (fun x => x.building_id == b.id)).filterMap
              (fun bo' => joinRow cat b bi' bo'))) := by
        intro b
        rw [List.filter_append, List.flatMap_append]
        by_cases hb : bi.building_id == b.id
        · have hfil : List.filter (fun x => x.building_id == b.id) [bi] = [bi] := by
            simp [List.filter, hb]
          rw [hfil]
          have hnil : (cat.building_outputs.filter
              (fun x => x.building_id == b.id)).filterMap
                (fun bo' => joinRow cat b bi bo') = [] := by
            rw [List.filterMap_eq_nil_iff]
            intro a _
            exact joinRow_input_none cat b bi a hbi
          simp [hnil]
        · have hfil : List.filter (fun x => x.building_id == b.id) [bi] = [] := by
            simp [List.filter, hb]
          simp [hfil]
      have hjoin : ∀ (b : BuildingRow) (bi2 : InputRow) (bo2 : OutputRow),
          joinRow { cat with building_inputs := cat.building_inputs ++ [bi] } b bi2 bo2
            = joinRow cat b bi2 bo2 := fun _ _ _ => rfl
      simp only [hjoin]
      simp only [hinner]
    unfold buildProductionGraph
    rw [hq]
  · have hq : queryRows { cat with building_outputs := cat.building_outputs ++ [bo] }
        = queryRows cat := by
      unfold queryRows
      congr 1
      have hinner : ∀ b : BuildingRow,
          ((cat.building_inputs.filter
              (fun x => x.building_id == b.id)).flatMap (fun bi' =>
            ((cat.building_outputs ++ [bo]).filter
                (fun x => x.building_id == b.id)).filterMap
              (fun bo' => joinRow cat b bi' bo')))
          = ((cat.building_inputs.filter
              (fun x => x.building_id == b.id)).flatMap (fun bi' =>
            (cat.building_outputs.filter (fun x => x.building_id == b.id)).filterMap
              (fun bo' => joinRow cat b bi' bo'))) := by
        intro b
        congr 1
        funext bi'
        rw [List.filter_append, List.filterMap_append]
        by_cases hb : bo.building_id == b.id
        · have hfil : List.filter (fun x => x.building_id == b.id) [bo] = [bo] := by
            simp [List.filter, hb]
          rw [hfil]
          have hnil : List.filterMap (fun bo' => joinRow cat b bi' bo') [bo] = [] := by
            rw [List.filterMap_eq_nil_iff]
            intro a ha
            have : a = bo := by simpa using ha
            rw [this]
            exact joinRow_output_none cat b bi' bo hbo
          simp [hnil]
        · have hfil : List.filter (fun x => x.building_id == b.id) [bo] = [] := by
            simp [List.filter, hb]
          simp [hfil]
      have hjoin : ∀ (b : BuildingRow) (bi2 : InputRow) (bo2 : OutputRow),
          joinRow { cat with building_outputs := cat.building_outputs ++ [bo] } b bi2 bo2
            = joinRow cat b bi2 bo2 := fun _ _ _ => rfl
      simp only [hjoin]
      simp only [hinner]
    unfold buildProductionGraph
    rw [hq]

/-- Catalog in which the building Bad (id 2) has an input row referencing
the resource id 99, absent from the `resources` table, while the building
Mill (id 1) is fully resolvable. -/
def cat6 : Catalog :=
  { resources := [⟨1, "Water"⟩, ⟨2, "Grain"⟩, ⟨3, "Flour"⟩],
    buildings := [⟨1, "Mill"⟩, ⟨2, "Bad"⟩],
    building_inputs := [⟨1, 2, 1⟩, ⟨2, 99, 1⟩],
    building_outputs := [⟨1, 3, 1, 10, 6⟩, ⟨2, 1, 1, 5, 12⟩] }

/-- **C6** (counterexample to the claim as stated).  The catalog `cat6`
contains a building input row referencing the missing resource id 99; the
build excludes that relation and completes the rest of the graph (the
Mill edge is built), but it records zero ValidationWarnings, not exactly
one as the claim requires. -/
theorem buildProductionGraph_no_warning_counterexample :
    (⟨2, 99, 1⟩ : InputRow) ∈ cat6.building_inputs ∧
    lookupResource cat6 99 = none ∧
    (buildProductionGraph cat6).warnings.length = 0 ∧
    (buildProductionGraph cat6).warnings.length ≠ 1 ∧
    ((buildProductionGraph cat6).edges.map (fun e => e.building)) = ["Mill"] := by
  refine ⟨by decide, by decide, rfl, by decide, by decide⟩

/-- Witness for the amended C6 theorem at the concrete catalog `cat6` and
a dangling input row and a dangling output row referencing id 99. -/
theorem buildProductionGraph_skips_dangling_witness :
    lookupResource cat6 99 = none ∧
    (buildProductionGraph { cat6 with
        building_inputs := cat6.building_inputs ++ [⟨2, 99, 1⟩] }
      = buildProductionGraph cat6 ∧
    buildProductionGraph { cat6 with
        building_outputs := cat6.building_outputs ++ [⟨2, 99, 1, 5, 12⟩] }
      = buildProductionGraph cat6 ∧
    (buildProductionGraph cat6).warnings = []) :=
  ⟨by decide,
    buildProductionGraph_skips_dangling cat6 ⟨2, 99, 1⟩ ⟨2, 99, 1, 5, 12⟩
      (by decide) (by decide)⟩

/-- Adding an edge adds exactly its resource pair to the pair set. -/
lemma edgePairs_addEdge (es : List Edge) (e : Edge) :
    edgePairs (addEdge es e) = edgePairs es ∪ {(e.input, e.output)} := by
  unfold addEdge edgePairs
  by_cases h : es.any (samePair e)
  · rw [if_pos h]
    have hmap : (es.map (fun e2 => if samePair e e2 then e else e2)).map
        (fun x => (x.input, x.output)) = es.map (fun x => (x.input, x.output)) := by
      rw [List.map_map]
      apply List.map_congr_left
      intro a _
      by_cases ha : samePair e a
      · simp only [Function.comp_apply, if_pos ha]
        exact (samePair_pair ha).symm
      · simp only [Function.comp_apply, if_neg ha]
    rw [hmap]
    have hmem : (e.input, e.output) ∈ (es.map (fun x => (x.input, x.output))).toFinset := by
      rcases List.any_eq_true.mp h with ⟨x, hx, hpx⟩
      rw [List.mem_toFinset]
      exact List.mem_map.mpr ⟨x, hx, samePair_pair hpx⟩
    exact (Finset.union_eq_left.mpr (Finset.singleton_subset_iff.mpr hmem)).symm
  · rw [if_neg h, List.map_append, List.toFinset_append]
    rfl

/-- The pair set of the built graph is the set of pairs of the rows. -/
lemma edgePairs_buildGraphEdges (rows : List QueryRow) :
    edgePairs (buildGraphEdges rows)
      = (rows.map (fun r => (r.input_resource, r.output_resource))).toFinset := by
  suffices h : ∀ (rows : List QueryRow) (acc : List Edge),
      edgePairs (rows.foldl (fun es row => addEdge es (edgeOfRow row)) acc)
        = edgePairs acc ∪
          (rows.map (fun r => (r.input_resource, r.output_resource))).toFinset by
    have h0 := h rows []
    rw [buildGraphEdges, h0]
    rw [show edgePairs [] = (∅ : Finset (String × String)) from rfl]
    exact Finset.empty_union _
  intro rows
  induction rows with
  | nil => intro acc; simp
  | cons row rest ih =>
    intro acc
    rw [List.foldl_cons, ih, edgePairs_addEdge, List.map_cons, List.toFinset_cons,
      Finset.union_assoc, Finset.insert_eq]
    rfl

/-- **C5** (confirmed).  The edge set of the built graph is a pure
function of the catalog snapshot up to row order: permuting the
`buildings`, `building_inputs` and `building_outputs` tables of an
otherwise identical catalog leaves the set of (input, output) resource
pairs of the built graph unchanged — the edge set is a set union over the
rows. -/
theorem buildProductionGraph_order_independent (cat cat2 : Catalog)
    (hres : cat2.resources = cat.resources)
    (hb : cat2.buildings.Perm cat.buildings)
    (hi : cat2.building_inputs.Perm cat.building_inputs)
    (ho : cat2.building_outputs.Perm cat.building_outputs) :
    edgePairs (buildProductionGraph cat2).edges
      = edgePairs (buildProductionGraph cat).edges := by
  have hjoin : ∀ b bi bo, joinRow cat2 b bi bo = joinRow cat b bi bo := by
    intro b bi bo
    unfold joinRow lookupResource
    rw [hres]
  have hperm : (queryRows cat2).Perm (queryRows cat) := by
    unfold queryRows
    refine ((List.perm_insertionSort _ _).trans ?_).trans
      (List.perm_insertionSort _ _).symm
    have hinner : ∀ b : BuildingRow,
        ((cat2.building_inputs.filter (fun bi => bi.building_id == b.id)).flatMap
          (fun bi => (cat2.building_outputs.filter
              (fun bo => bo.building_id == b.id)).filterMap
            (fun bo => joinRow cat2 b bi bo))).Perm
        ((cat.building_inputs.filter (fun bi => bi.building_id == b.id)).flatMap
          (fun bi => (cat.building_outputs.filter
              (fun bo => bo.building_id == b.id)).filterMap
            (fun bo => joinRow cat b bi bo))) := by
      intro b
      refine (List.Perm.flatMap_left _ (fun bi _ => ?_)).trans
        (List.Perm.flatMap_right _ (hi.filter _))
      simp only [hjoin]
      exact List.Perm.filterMap _ (ho.filter _)
    exact (List.Perm.flatMap_left _ (fun b _ => hinner b)).trans
      (List.Perm.flatMap_right _ hb)
  rw [show (buildProductionGraph cat2).edges = buildGraphEdges (queryRows cat2) from rfl,
    show (buildProductionGraph cat).edges = buildGraphEdges (queryRows cat) from rfl,
    edgePairs_buildGraphEdges, edgePairs_buildGraphEdges]
  ext p
  simp only [List.mem_toFinset]
  exact (hperm.map (fun r => (r.input_resource, r.output_resource))).mem_iff

/-- A permutation of `cat4`: same rows, with the buildings, inputs and
outputs tables each listed in the opposite order. -/
def cat5 : Catalog :=
  { resources := [⟨1, "Water"⟩, ⟨2, "Steam"⟩],
    buildings := [⟨2, "Beta"⟩, ⟨1, "Alpha"⟩],
    building_inputs := [⟨2, 1, 3⟩, ⟨1, 1, 2⟩],
    building_outputs := [⟨2, 2, 1, 5, 12⟩, ⟨1, 2, 1, 10, 6⟩] }

/-- Witness for the C5 theorem: the permuted catalog `cat5` yields the
same edge pair set as `cat4`. -/
theorem buildProductionGraph_order_independent_witness :
    edgePairs (buildProductionGraph cat5).edges
      = edgePairs (buildProductionGraph cat4).edges :=
  buildProductionGraph_order_independent cat4 cat5 rfl (by decide) (by decide)
    (by decide)

/-! ## Lemmas about the dependency tracer -/

/-- A property preserved by every step of a fold is preserved by the
whole fold. -/
lemma foldl_preserve {α : Type} (P : TraceState → Prop)
    (f : TraceState → α → TraceState) :
    ∀ (l : List α) (st : TraceState),
      (∀ st2 a, a ∈ l → P st2 → P (f st2 a)) → P st → P (l.foldl f st)
  | [], _, _, h => h
  | a :: l, st, hf, h =>
    foldl_preserve P f l (f st a)
      (fun st2 b hb => hf st2 b (List.mem_cons_of_mem a hb))
      (hf st a (List.mem_cons_self a l) h)

/-- An `addDep` at one depth leaves every other depth unchanged. -/
lemma addDep_ne (deps : ℕ → List (String × String)) (depth k : ℕ)
    (entry : String × String) (hk : k ≠ depth) :
    addDep deps depth entry k = deps k := by
  unfold addDep
  rw [if_neg hk]

/-- Producers returned by `predecessors` are nodes of the graph. -/
lemma predecessors_subset (g : List Edge) (r p : String)
    (h : p ∈ predecessors g r) : p ∈ graphNodes g := by
  unfold predecessors at h
  rw [List.mem_dedup] at h
  rcases List.mem_map.mp h with ⟨e, he, hep⟩
  unfold graphNodes
  rw [List.mem_dedup]
  exact List.mem_append.mpr (Or.inl (List.mem_map.mpr
    ⟨e, List.mem_of_mem_filter he, hep⟩))

/-- The DFS never records the same resource twice in `visited`: the
membership guard is checked against the one trace-wide set, and a
resource is inserted exactly when it is expanded. -/
lemma dfs_visited_nodup (g : List Edge) :
    ∀ (fuel depth : ℕ) (resource : String) (st : TraceState),
      st.visited.Nodup → ((dfsDependencies g fuel depth resource st).visited).Nodup := by
  intro fuel
  induction fuel with
  | zero => intro depth r st h; exact h
  | succ n ih =>
    intro depth r st h
    by_cases hv : r ∈ st.visited
    · simp only [dfsDependencies, if_pos hv]
      exact h
    · simp only [dfsDependencies, if_neg hv]
      by_cases hp : (predecessors g r).isEmpty
      · simp only [if_pos hp]
        exact List.nodup_cons.mpr ⟨hv, h⟩
      · simp only [if_neg hp]
        refine foldl_preserve (fun s => s.visited.Nodup) _ (predecessors g r) _
          ?_ (List.nodup_cons.mpr ⟨hv, h⟩)
        intro st2 p _ h2
        exact ih (depth + 1) p _ h2

/-- Everything the DFS adds to `visited` is the expanded resource itself
or a node of the graph. -/
lemma dfs_visited_mem (g : List Edge) :
    ∀ (fuel depth : ℕ) (resource : String) (st : TraceState) (x : String),
      x ∈ (dfsDependencies g fuel depth resource st).visited →
      x = resource ∨ x ∈ graphNodes g ∨ x ∈ st.visited := by
  intro fuel
  induction fuel with
  | zero => intro depth r st x hx; exact Or.inr (Or.inr hx)
  | succ n ih =>
    intro depth r st x hx
    by_cases hv : r ∈ st.visited
    · simp only [dfsDependencies, if_pos hv] at hx
      exact Or.inr (Or.inr hx)
    · simp only [dfsDependencies, if_neg hv] at hx
      by_cases hp : (predecessors g r).isEmpty
      · simp only [if_pos hp] at hx
        rcases List.mem_cons.mp hx with h | h
        · exact Or.inl h
        · exact Or.inr (Or.inr h)
      · simp only [if_neg hp] at hx
        refine foldl_preserve
          (fun s => ∀ y ∈ s.visited, y = r ∨ y ∈ graphNodes g ∨ y ∈ st.visited)
          _ (predecessors g r) _ ?_ ?_ x hx
        · intro st2 p hpmem hst2 y hy
          rcases ih (depth + 1) p _ y hy with h | h | h
          · exact Or.inr (Or.inl (h ▸ predecessors_subset g r p hpmem))
          · exact Or.inr (Or.inl h)
          · exact hst2 y h
        · intro y hy
          rcases List.mem_cons.mp hy with h | h
          · exact Or.inl h
          · exact Or.inr (Or.inr h)

/-- The DFS never records a dependency at a depth beyond the depth bound:
along the trace the remaining budget plus the current depth never exceeds
`maxd + 1`, and entries are only recorded when budget remains. -/
lemma dfs_deps_high (g : List Edge) :
    ∀ (fuel depth : ℕ) (resource : String) (st : TraceState) (maxd k : ℕ),
      fuel + depth ≤ maxd + 1 → maxd < k → st.deps k = [] →
      (dfsDependencies g fuel depth resource st).deps k = [] := by
  intro fuel
  induction fuel with
  | zero => intro depth r st maxd k h1 h2 h3; exact h3
  | succ n ih =>
    intro depth r st maxd k h1 h2 h3
    by_cases hv : r ∈ st.visited
    · simp only [dfsDependencies, if_pos hv]
      exact h3
    · simp only [dfsDependencies, if_neg hv]
      have hdk : k ≠ depth := by omega
      by_cases hp : (predecessors g r).isEmpty
      · simp only [if_pos hp]
        show addDep st.deps depth (r, "raw") k = []
        rw [addDep_ne _ _ _ _ hdk]
        exact h3
      · simp only [if_neg hp]
        refine foldl_preserve (fun s => s.deps k = []) _ (predecessors g r) _ ?_ h3
        intro st2 p _ h4
        refine ih (depth + 1) p _ maxd k (by omega) h2 ?_
        show addDep st2.deps depth (r, edgeBuilding g p r) k = []
        rw [addDep_ne _ _ _ _ hdk]
        exact h4

/-- **C1** (amended).  The visited guard of
`trace_resource_dependencies` is trace-global, not per-path: over one
whole trace call no resource is ever expanded twice, so the `visited`
list of the final state has no duplicates — a resource reached again on a
sibling branch is blocked, not only one reached on its own ancestor
chain. -/
theorem traceResourceDependencies_visited_nodup (g : List Edge)
    (target : String) (maxDepth : ℕ) :
    ((traceResourceDependencies g target maxDepth).visited).Nodup :=
  dfs_visited_nodup g (maxDepth + 1) 0 target ⟨[], fun _ => []⟩ List.nodup_nil

/-- Graph for the C1 counterexample: D → C, C → A, A → T and C → T, so C
occurs both as a direct producer of T (depth 1) and on the branch through
A (depth 2). -/
def g1 : List Edge :=
  [⟨"D", "C", "bDC", 1, 1, 1, 1⟩, ⟨"C", "A", "bCA", 1, 1, 1, 1⟩,
   ⟨"A", "T", "bAT", 1, 1, 1, 1⟩, ⟨"C", "T", "bCT", 1, 1, 1, 1⟩]

/-- **C1** (counterexample to the claim as stated).  Tracing T in `g1`
expands C on the first branch (through A, at depth 2, recording its
producer row `(C, bDC)` there) and then reaches C again as a sibling
branch directly under T; the claim says C is expanded there as well, but
the trace records nothing for C at depth 1 — its depth-1 row set is
exactly the expansion of A — because C is already in the trace-wide
visited set. -/
theorem trace_blocks_sibling_counterexample :
    "C" ∈ predecessors g1 "T" ∧
    ("C", "bDC") ∈ (traceResourceDependencies g1 "T" 10).deps 2 ∧
    ("C", "bDC") ∉ (traceResourceDependencies g1 "T" 10).deps 1 ∧
    (traceResourceDependencies g1 "T" 10).deps 1 = [("A", "bCA")] := by
  exact ⟨by decide, by decide, by decide, by decide⟩

/-- **C8** (amended).  A trace with bound `maxDepth` records no
dependency at any depth greater than `maxDepth` — the returned tree is
truncated at the bound and the recursion always terminates — but the
boundary carries no `MAX_DEPTH_REACHED` marker and the result carries no
truncation flag: the function returns the bare dependency map. -/
theorem traceResourceDependencies_depth_bounded (g : List Edge)
    (target : String) (maxDepth k : ℕ) (hk : maxDepth < k) :
    (traceResourceDependencies g target maxDepth).deps k = [] :=
  dfs_deps_high g (maxDepth + 1) 0 target ⟨[], fun _ => []⟩ maxDepth k
    (by omega) hk rfl

/-- Chain graph for C8: F → E → D → C → B → A, a true chain depth of 5
below A. -/
def g8 : List Edge :=
  [⟨"B", "A", "b1", 1, 1, 1, 1⟩, ⟨"C", "B", "b2", 1, 1, 1, 1⟩,
   ⟨"D", "C", "b3", 1, 1, 1, 1⟩, ⟨"E", "D", "b4", 1, 1, 1, 1⟩,
   ⟨"F", "E", "b5", 1, 1, 1, 1⟩]

/-- Witness for the amended C8 theorem: tracing A in the depth-5 chain
`g8` with bound 2 records nothing at depth 3. -/
theorem traceResourceDependencies_depth_bounded_witness :
    2 < 3 ∧ (traceResourceDependencies g8 "A" 2).deps 3 = [] :=
  ⟨by decide, traceResourceDependencies_depth_bounded g8 "A" 2 3 (by decide)⟩

/-- **C8** (counterexample to the claim as stated).  Tracing A in the
depth-5 chain `g8` with `maxDepth = 2` stops at C: C still has a producer
(D), so it is a boundary node where expansion stopped because of the
depth bound, yet its recorded entry is its ordinary producing-building
tag `b3` — there is no `MAX_DEPTH_REACHED` marker anywhere in the result,
and the returned dependency map carries no truncation flag. -/
theorem trace_no_max_depth_marker_counterexample :
    (traceResourceDependencies g8 "A" 2).deps 2 = [("C", "b3")] ∧
    ("C", "MAX_DEPTH_REACHED") ∉ (traceResourceDependencies g8 "A" 2).deps 2 ∧
    (traceResourceDependencies g8 "A" 2).deps 3 = [] ∧
    predecessors g8 "C" ≠ [] := by
  exact ⟨by decide, by decide, by decide, by decide⟩

/-- **C10** (confirmed).  The trace marks a resource visited before
enumerating its producers and never expands a visited resource again, so
for a target that is a node of the graph the number of resources ever
expanded — the length of the final trace-wide `visited` list, which is
duplicate-free by `dfs_visited_nodup` — is bounded by the number of
resources in the graph, for every depth bound and even on cyclic
graphs. -/
theorem traceResourceDependencies_expansion_bound (g : List Edge)
    (target : String) (maxDepth : ℕ) (ht : target ∈ graphNodes g) :
    ((traceResourceDependencies g target maxDepth).visited).length
      ≤ (graphNodes g).length := by
  have hnd : ((traceResourceDependencies g target maxDepth).visited).Nodup :=
    dfs_visited_nodup g (maxDepth + 1) 0 target ⟨[], fun _ => []⟩ List.nodup_nil
  have hsub : ∀ x ∈ (traceResourceDependencies g target maxDepth).visited,
      x ∈ graphNodes g := by
    intro x hx
    rcases dfs_visited_mem g (maxDepth + 1) 0 target ⟨[], fun _ => []⟩ x hx with
      h | h | h
    · exact h ▸ ht
    · exact h
    · exact absurd h (List.not_mem_nil x)
  calc ((traceResourceDependencies g target maxDepth).visited).length
      = ((traceResourceDependencies g target maxDepth).visited).toFinset.card :=
        (List.toFinset_card_of_nodup hnd).symm
    _ ≤ (graphNodes g).toFinset.card :=
        Finset.card_le_card (fun x hx =>
          List.mem_toFinset.mpr (hsub x (List.mem_toFinset.mp hx)))
    _ ≤ (graphNodes g).length := List.toFinset_card_le _

/-- Cyclic graph for the C10 witness: A → B and B → A. -/
def gCyc : List Edge :=
  [⟨"B", "A", "bBA", 1, 1, 1, 1⟩, ⟨"A", "B", "bAB", 1, 1, 1, 1⟩]

/-- Witness for C10 on the two-resource cycle `gCyc`: the trace of A
terminates with at most two expansions. -/
theorem traceResourceDependencies_expansion_bound_witness :
    "A" ∈ graphNodes gCyc ∧
    ((traceResourceDependencies gCyc "A" 10).visited).length
      ≤ (graphNodes gCyc).length :=
  ⟨by decide, traceResourceDependencies_expansion_bound gCyc "A" 10 (by decide)⟩

end Masterplan
